import Mathlib

set_option maxRecDepth 100000
set_option synthInstance.maxHeartbeats 1000000

/-!
Verification of the Work2Word Markdown → rich-document conversion core
(`src/electron/fileProcessor.ts` and `src/electron/utils/latexConverter.ts`)
against its natural-language specification.

The TypeScript code is shallowly embedded: pure functions become Lean
functions over `List Char` / `String`, JavaScript numbers become the
kernel-reducible rational type `JQ` defined below,
JavaScript `undefined`-able fields become `Option`, and JavaScript `||`
falsiness (`""` and `0` are falsy) is modelled explicitly.  String-rewriting
passes that the source expresses as JavaScript regex replacements are
implemented as left-to-right scanners with the exact match/advance semantics
of `String.prototype.replace` with the `g` flag; each scanner carries a
`Nat` fuel argument so that it is structurally recursive (the wrappers pass
`s.length` as fuel, which is always sufficient because every step consumes
at least one input character).
-/

/-- JavaScript `a || b` for strings: `""` (and `undefined`, collapsed into
`""` where the source only ever tests truthiness) falls through to `b`. -/
def jsOr (a b : String) : String :=
  if a = "" then b else a

/-- JavaScript `a || b` where `a` is a possibly-`undefined` string field:
`undefined` and `""` both fall through. -/
def jsOrO (a : Option String) (b : String) : String :=
  match a with
  | none => b
  | some s => if s = "" then b else s

/-- Fueled Euclidean gcd.  Unlike `Nat.gcd` (defined by well-founded
recursion, which the kernel cannot reduce), this structural version
evaluates inside `decide` proofs; `fuel = m + 1` always suffices because
the first argument strictly decreases. -/
def gcdF : Nat → Nat → Nat → Nat
  | 0, m, _ => m
  | _ + 1, 0, n => n
  | fuel + 1, m, n => gcdF fuel (n % m) m

/-- Kernel-reducible gcd wrapper. -/
def gcdK (m n : Nat) : Nat :=
  gcdF (m + 1) m n

/-- JavaScript numbers of the embedded code, as rationals represented by a
numerator/denominator pair.  All borrowed operations (`JQ.mul`, the numeric
literals, `JQ.ofNat`) produce pairs in lowest terms with positive
denominator, so structural equality on the values the model constructs
coincides with rational equality; the representation exists only because
the kernel cannot reduce the gcd-based arithmetic of the standard `Rat`
inside `decide`. -/
structure JQ where
  num : Int
  den : Nat
deriving DecidableEq

/-- Normalise a numerator/denominator pair to lowest terms. -/
def JQ.normalize (n : Int) (d : Nat) : JQ :=
  let g := gcdK n.natAbs d
  if g = 0 then ⟨n, d⟩ else ⟨n / (g : Int), d / g⟩

/-- Multiplication (the only arithmetic the embedded code performs on
style numbers). -/
def JQ.mul (a b : JQ) : JQ :=
  JQ.normalize (a.num * b.num) (a.den * b.den)

instance : Mul JQ := ⟨JQ.mul⟩

instance (n : Nat) : OfNat JQ n := ⟨⟨Int.ofNat n, 1⟩⟩

/-- Embed a natural number. -/
def JQ.ofNat (n : Nat) : JQ :=
  ⟨Int.ofNat n, 1⟩

/-- JavaScript truthiness test for a number: `0` is falsy. -/
def JQ.isZero (a : JQ) : Bool :=
  a.num == 0

/-- The `> 0` test on a (positive-denominator) number. -/
def JQ.pos (a : JQ) : Bool :=
  0 < a.num

/-- JavaScript `a || b` where `a` is a possibly-`undefined` number field:
`undefined` and `0` both fall through. -/
def jsOrQ (a : Option JQ) (b : JQ) : JQ :=
  match a with
  | none => b
  | some x => if x.isZero then b else x

/-- Characters matched by JavaScript `\s` (without the `u` flag). -/
def isJsSpace (c : Char) : Bool :=
  [' ', '\t', '\n', '\x0B', '\x0C', '\r', '\u00A0', '\u1680',
   '\u2000', '\u2001', '\u2002', '\u2003', '\u2004', '\u2005', '\u2006',
   '\u2007', '\u2008', '\u2009', '\u200A', '\u2028', '\u2029', '\u202F',
   '\u205F', '\u3000', '\uFEFF'].contains c

/-- Boolean prefix test on character lists. -/
def mdStartsWith : List Char → List Char → Bool
  | [], _ => true
  | _ :: _, [] => false
  | p :: ps, c :: cs => p == c && mdStartsWith ps cs

/-- Split a character list at the first occurrence of `stop`, returning the
part before it and the part after it (the `stop` character itself removed);
`none` when `stop` does not occur. -/
def splitBeforeChar (stop : Char) : List Char → Option (List Char × List Char)
  | [] => none
  | c :: rest =>
    if c == stop then some ([], rest)
    else
      match splitBeforeChar stop rest with
      | some (pre, post) => some (c :: pre, post)
      | none => none

/-- Fueled global literal replacement, the semantics of
`str.replace(new RegExp(<escaped literal>, 'g'), repl)`: scan left to right,
replace each non-overlapping occurrence, continue scanning after the
replaced region of the original string. -/
def replaceAux (pat repl : List Char) : Nat → List Char → List Char
  | 0, s => s
  | _ + 1, [] => []
  | fuel + 1, c :: rest =>
    if mdStartsWith pat (c :: rest) then
      repl ++ replaceAux pat repl fuel (List.drop pat.length (c :: rest))
    else
      c :: replaceAux pat repl fuel rest

/-- Global literal replacement (wrapper supplying sufficient fuel). -/
def replaceList (pat repl s : List Char) : List Char :=
  replaceAux pat repl s.length s

/-- JavaScript `String.prototype.trim` on a character list. -/
def jsTrimList (s : List Char) : List Char :=
  ((s.dropWhile isJsSpace).reverse.dropWhile isJsSpace).reverse

/-- JavaScript `String.prototype.trim`. -/
def jsTrim (s : String) : String :=
  String.mk (jsTrimList s.data)

/-- The `latexToUnicode` command table of `latexConverter.ts` /
`fileProcessor.ts`, in source (insertion) order — the order matters because
the replacement loop applies the entries sequentially. -/
def latexCommands : List (String × String) :=
  [("\\alpha", "α"), ("\\beta", "β"), ("\\gamma", "γ"), ("\\delta", "δ"),
   ("\\epsilon", "ε"), ("\\zeta", "ζ"), ("\\eta", "η"), ("\\theta", "θ"),
   ("\\iota", "ι"), ("\\kappa", "κ"), ("\\lambda", "λ"), ("\\mu", "μ"),
   ("\\nu", "ν"), ("\\xi", "ξ"), ("\\pi", "π"), ("\\rho", "ρ"),
   ("\\sigma", "σ"), ("\\tau", "τ"), ("\\upsilon", "υ"), ("\\phi", "φ"),
   ("\\chi", "χ"), ("\\psi", "ψ"), ("\\omega", "ω"),
   ("\\Gamma", "Γ"), ("\\Delta", "Δ"), ("\\Theta", "Θ"), ("\\Lambda", "Λ"),
   ("\\Xi", "Ξ"), ("\\Pi", "Π"), ("\\Sigma", "Σ"), ("\\Phi", "Φ"),
   ("\\Psi", "Ψ"), ("\\Omega", "Ω"),
   ("\\times", "×"), ("\\div", "÷"), ("\\pm", "±"), ("\\mp", "∓"),
   ("\\cdot", "·"), ("\\ast", "∗"), ("\\star", "⋆"),
   ("\\leq", "≤"), ("\\geq", "≥"), ("\\neq", "≠"), ("\\approx", "≈"),
   ("\\equiv", "≡"), ("\\sim", "∼"), ("\\simeq", "≃"),
   ("\\ll", "≪"), ("\\gg", "≫"), ("\\subset", "⊂"), ("\\supset", "⊃"),
   ("\\subseteq", "⊆"), ("\\supseteq", "⊇"), ("\\in", "∈"), ("\\ni", "∋"),
   ("\\notin", "∉"), ("\\cap", "∩"), ("\\cup", "∪"),
   ("\\land", "∧"), ("\\lor", "∨"), ("\\neg", "¬"),
   ("\\forall", "∀"), ("\\exists", "∃"), ("\\partial", "∂"),
   ("\\nabla", "∇"), ("\\infty", "∞"), ("\\emptyset", "∅"),
   ("\\sum", "∑"), ("\\prod", "∏"), ("\\int", "∫"),
   ("\\sqrt", "√"), ("\\angle", "∠"), ("\\perp", "⊥"), ("\\parallel", "∥"),
   ("\\triangle", "△"), ("\\square", "□"), ("\\circ", "∘"),
   ("\\rightarrow", "→"), ("\\leftarrow", "←"), ("\\Rightarrow", "⇒"),
   ("\\Leftarrow", "⇐"),
   ("\\leftrightarrow", "↔"), ("\\Leftrightarrow", "⇔"),
   ("\\uparrow", "↑"), ("\\downarrow", "↓"),
   ("\\ldots", "…"), ("\\cdots", "⋯"), ("\\vdots", "⋮"), ("\\ddots", "⋱"),
   ("\\prime", "′"), ("\\degree", "°"), ("\\%", "%")]

/-- The superscript character table used for `^\x7b...\x7d` contents. -/
def supMapBrace (c : Char) : Char :=
  match c with
  | '0' => '⁰' | '1' => '¹' | '2' => '²' | '3' => '³' | '4' => '⁴'
  | '5' => '⁵' | '6' => '⁶' | '7' => '⁷' | '8' => '⁸' | '9' => '⁹'
  | '+' => '⁺' | '-' => '⁻' | '=' => '⁼' | '(' => '⁽' | ')' => '⁾'
  | 'n' => 'ⁿ' | 'i' => 'ⁱ'
  | _ => c

/-- The superscript digit table used for `^digit`. -/
def supMapDigit (c : Char) : Char :=
  match c with
  | '0' => '⁰' | '1' => '¹' | '2' => '²' | '3' => '³' | '4' => '⁴'
  | '5' => '⁵' | '6' => '⁶' | '7' => '⁷' | '8' => '⁸' | '9' => '⁹'
  | _ => c

/-- The subscript character table used for `_\x7b...\x7d` contents. -/
def subMapBrace (c : Char) : Char :=
  match c with
  | '0' => '₀' | '1' => '₁' | '2' => '₂' | '3' => '₃' | '4' => '₄'
  | '5' => '₅' | '6' => '₆' | '7' => '₇' | '8' => '₈' | '9' => '₉'
  | '+' => '₊' | '-' => '₋' | '=' => '₌' | '(' => '₍' | ')' => '₎'
  | 'a' => 'ₐ' | 'e' => 'ₑ' | 'o' => 'ₒ' | 'x' => 'ₓ'
  | 'i' => 'ᵢ' | 'j' => 'ⱼ' | 'n' => 'ₙ' | 'm' => 'ₘ'
  | _ => c

/-- The subscript digit table used for `_digit`. -/
def subMapDigit (c : Char) : Char :=
  match c with
  | '0' => '₀' | '1' => '₁' | '2' => '₂' | '3' => '₃' | '4' => '₄'
  | '5' => '₅' | '6' => '₆' | '7' => '₇' | '8' => '₈' | '9' => '₉'
  | _ => c

/-- Scanner for the replacement `result.replace(/\^\x7b([^\x7d]+)\x7d/g, map)`:
a caret followed by a braced, non-empty, `\x7d`-free group has each group
character sent through the superscript table. -/
def supBraceAux : Nat → List Char → List Char
  | 0, s => s
  | _ + 1, [] => []
  | fuel + 1, '^' :: '\x7b' :: rest =>
    (match splitBeforeChar '\x7d' rest with
     | some (content, rest2) =>
       if content = [] then '^' :: supBraceAux fuel ('\x7b' :: rest)
       else content.map supMapBrace ++ supBraceAux fuel rest2
     | none => '^' :: supBraceAux fuel ('\x7b' :: rest))
  | fuel + 1, c :: rest => c :: supBraceAux fuel rest

/-- Scanner for `result.replace(/\^(\d)/g, map)`. -/
def supDigitAux : Nat → List Char → List Char
  | 0, s => s
  | _ + 1, [] => []
  | fuel + 1, '^' :: c :: rest =>
    if c.isDigit then supMapDigit c :: supDigitAux fuel rest
    else '^' :: supDigitAux fuel (c :: rest)
  | fuel + 1, c :: rest => c :: supDigitAux fuel rest

/-- Scanner for `result.replace(/_\x7b([^\x7d]+)\x7d/g, map)`. -/
def subBraceAux : Nat → List Char → List Char
  | 0, s => s
  | _ + 1, [] => []
  | fuel + 1, '_' :: '\x7b' :: rest =>
    (match splitBeforeChar '\x7d' rest with
     | some (content, rest2) =>
       if content = [] then '_' :: subBraceAux fuel ('\x7b' :: rest)
       else content.map subMapBrace ++ subBraceAux fuel rest2
     | none => '_' :: subBraceAux fuel ('\x7b' :: rest))
  | fuel + 1, c :: rest => c :: subBraceAux fuel rest

/-- Scanner for `result.replace(/_(\d)/g, map)`. -/
def subDigitAux : Nat → List Char → List Char
  | 0, s => s
  | _ + 1, [] => []
  | fuel + 1, '_' :: c :: rest =>
    if c.isDigit then subMapDigit c :: subDigitAux fuel rest
    else '_' :: subDigitAux fuel (c :: rest)
  | fuel + 1, c :: rest => c :: subDigitAux fuel rest

/-- Scanner for
`result.replace(/\\frac\x7b([^\x7d]+)\x7d\x7b([^\x7d]+)\x7d/g, (a/b))`:
the two groups are non-empty and `\x7d`-free. -/
def fracAux : Nat → List Char → List Char
  | 0, s => s
  | _ + 1, [] => []
  | fuel + 1, c :: rest =>
    if mdStartsWith "\\frac\x7b".data (c :: rest) then
      match splitBeforeChar '\x7d' (List.drop 6 (c :: rest)) with
      | some (a, r1) =>
        (match r1 with
         | '\x7b' :: r1' =>
           (match splitBeforeChar '\x7d' r1' with
            | some (b, r2) =>
              if a ≠ [] ∧ b ≠ [] then
                '(' :: a ++ '/' :: b ++ ')' :: fracAux fuel r2
              else c :: fracAux fuel rest
            | none => c :: fracAux fuel rest)
         | _ => c :: fracAux fuel rest)
      | none => c :: fracAux fuel rest
    else c :: fracAux fuel rest

/-- Scanner for a one-argument command rewrite of shape
`result.replace(/<cmd>\x7b([^\x7d]+)\x7d/g, pre + group + post)`; `pat` is the
literal command text including the opening brace. -/
def wrapAux (pat pre post : List Char) : Nat → List Char → List Char
  | 0, s => s
  | _ + 1, [] => []
  | fuel + 1, c :: rest =>
    if mdStartsWith pat (c :: rest) then
      match splitBeforeChar '\x7d' (List.drop pat.length (c :: rest)) with
      | some (content, rest2) =>
        if content = [] then c :: wrapAux pat pre post fuel rest
        else pre ++ content ++ post ++ wrapAux pat pre post fuel rest2
      | none => c :: wrapAux pat pre post fuel rest
    else c :: wrapAux pat pre post fuel rest

/-- Scanner for the bare-brace cleanup
`result.replace(/\x7b([^\x7b\x7d]+)\x7d/g, group)`. -/
def braceAux : Nat → List Char → List Char
  | 0, s => s
  | _ + 1, [] => []
  | fuel + 1, '\x7b' :: rest =>
    (let content := rest.takeWhile (fun c => c != '\x7b' && c != '\x7d')
     let r2 := rest.dropWhile (fun c => c != '\x7b' && c != '\x7d')
     if content ≠ [] ∧ r2.head? = some '\x7d' then
       content ++ braceAux fuel r2.tail
     else '\x7b' :: braceAux fuel rest)
  | fuel + 1, c :: rest => c :: braceAux fuel rest

/-- Scanner for the whitespace collapse `result.replace(/\s+/g, ' ')`. -/
def wsAux : Nat → List Char → List Char
  | 0, s => s
  | _ + 1, [] => []
  | fuel + 1, c :: rest =>
    if isJsSpace c then ' ' :: wsAux fuel (rest.dropWhile isJsSpace)
    else c :: wsAux fuel rest

/-- The `latexToUnicodeText` transcoder of `latexConverter.ts` (identical
code is inlined in `fileProcessor.ts`), on character lists: sequential
command substitution, superscript and subscript expansion, fraction and
square-root flattening, wrapper-command stripping, bare-brace cleanup, and
whitespace normalisation, in exactly the source's pass order. -/
def latexToUnicodeTextL (s : List Char) : List Char :=
  let r1 := latexCommands.foldl
    (fun acc p => replaceList p.1.data p.2.data acc) s
  let r2 := supBraceAux r1.length r1
  let r3 := supDigitAux r2.length r2
  let r4 := subBraceAux r3.length r3
  let r5 := subDigitAux r4.length r4
  let r6 := fracAux r5.length r5
  let r7 := wrapAux "\\sqrt\x7b".data "√(".data ")".data r6.length r6
  let r8 := wrapAux "\\text\x7b".data [] [] r7.length r7
  let r9 := wrapAux "\\mathrm\x7b".data [] [] r8.length r8
  let r10 := wrapAux "\\mathbf\x7b".data [] [] r9.length r9
  let r11 := braceAux r10.length r10
  let r12 := wsAux r11.length r11
  jsTrimList r12

/-- The `latexToUnicodeText` transcoder on strings. -/
def latexToUnicodeText (s : String) : String :=
  String.mk (latexToUnicodeTextL s.data)

example : latexToUnicodeText "\\alpha^2" = "α²" := by decide

/-- Alignment values of the `HeadingStyle.alignment` closed enum. -/
inductive AlignKind where
  | left
  | center
  | right
  | justify
deriving DecidableEq

/-- The docx `AlignmentType` constants used by `getAlignment`. -/
inductive AlignmentType where
  | LEFT
  | CENTER
  | RIGHT
  | JUSTIFIED
deriving DecidableEq

/-- The `getAlignment` switch of `fileProcessor.ts`: its `default` arm maps
everything else — including an `undefined` alignment field — to `LEFT`. -/
def getAlignment : Option AlignKind → AlignmentType
  | some .center => .CENTER
  | some .right => .RIGHT
  | some .justify => .JUSTIFIED
  | _ => .LEFT

/-- A caller-supplied `ParagraphStyle` record as JavaScript sees it: every
field may be absent (`undefined`). -/
structure ParagraphStyleJS where
  fontFamily : Option String
  fontSize : Option JQ
  lineHeight : Option JQ
  paragraphSpacing : Option JQ
  firstLineIndent : Option JQ
deriving DecidableEq

/-- A caller-supplied `HeadingStyle` record as JavaScript sees it. -/
structure HeadingStyleJS where
  fontFamily : Option String
  fontSize : Option JQ
  lineHeight : Option JQ
  alignment : Option AlignKind
  spacingBefore : Option JQ
  spacingAfter : Option JQ
deriving DecidableEq

/-- A caller-supplied `FormatSettings` object: each of the five style slots
may be absent. -/
structure FormatSettingsJS where
  paragraph : Option ParagraphStyleJS
  heading1 : Option HeadingStyleJS
  heading2 : Option HeadingStyleJS
  heading3 : Option HeadingStyleJS
  heading4 : Option HeadingStyleJS
deriving DecidableEq

/-- The module-level `defaultStyles` paragraph constants (宋体, 12 pt, 1.5
line height, 6 pt spacing, 2-character first-line indent); the record is
complete, so every field is `some`. -/
def defaultStyles : ParagraphStyleJS :=
  ⟨some "宋体", some 12, some ⟨3, 2⟩, some 6, some 2⟩

/-- The module-level `defaultHeadingStyles` table indexed by heading key
1–4, as used by `createHeadingParagraph`. -/
def defaultHeadingStyles (k : Nat) : HeadingStyleJS :=
  match k with
  | 1 => ⟨some "黑体", some 22, some ⟨3, 2⟩, some .center, some 12, some 12⟩
  | 2 => ⟨some "黑体", some 16, some ⟨3, 2⟩, some .left, some 12, some 6⟩
  | 3 => ⟨some "黑体", some 14, some ⟨3, 2⟩, some .left, some 6, some 6⟩
  | _ => ⟨some "黑体", some 12, some ⟨3, 2⟩, some .left, some 6, some 6⟩

/-- The record-level fallback `formatSettings?.paragraph || defaultStyles`
that opens almost every builder in `fileProcessor.ts`: the default record is
taken only when the whole settings object or its `paragraph` slot is
absent; a present-but-partial record is used as-is. -/
def paraStyleOf (fs : Option FormatSettingsJS) : ParagraphStyleJS :=
  match fs with
  | none => defaultStyles
  | some f => f.paragraph.getD defaultStyles

/-- JavaScript `token.depth || 1` (a `0`/absent depth is falsy). -/
def depthOr1 (d : Nat) : Nat :=
  if d = 0 then 1 else d

/-- The heading style key `Math.min(depth, 4)` of `createHeadingParagraph`. -/
def headingKeyOf (tokDepth : Nat) : Nat :=
  Nat.min (depthOr1 tokDepth) 4

/-- Field access `formatSettings?.[headingKey]`. -/
def headingField (f : FormatSettingsJS) (k : Nat) : Option HeadingStyleJS :=
  match k with
  | 1 => f.heading1
  | 2 => f.heading2
  | 3 => f.heading3
  | _ => f.heading4

/-- The record-level fallback
`(formatSettings?.[headingKey]) || defaultHeadingStyles[headingKey]` of
`createHeadingParagraph`. -/
def chosenHeadingStyle (fs : Option FormatSettingsJS) (tokDepth : Nat) :
    HeadingStyleJS :=
  match fs.bind (fun f => headingField f (headingKeyOf tokDepth)) with
  | some h => h
  | none => defaultHeadingStyles (headingKeyOf tokDepth)

/-- A docx `TextRun` as configured by `fileProcessor.ts`: `none` stands for
a field the source leaves `undefined` in the `TextRun` options object
(for the `size` field this includes the `NaN` produced by arithmetic on an
`undefined` style field). -/
structure Run where
  text : String := ""
  bold : Option Bool := none
  italics : Option Bool := none
  strike : Option Bool := none
  color : Option String := none
  underline : Bool := false
  font : Option String := none
  size : Option JQ := none
  shading : Option String := none
  lineBreak : Option Nat := none
deriving DecidableEq

/-- Paragraph spacing options (twips / 240-per-line units). -/
structure ParaSpacing where
  before : Option JQ := none
  after : Option JQ := none
  line : Option JQ := none
deriving DecidableEq

/-- Paragraph indent options (twips). -/
structure ParaIndent where
  left : Option JQ := none
  right : Option JQ := none
  firstLine : Option JQ := none
  hanging : Option JQ := none
deriving DecidableEq

/-- A paragraph child: a text run or an embedded image
(`ImageRun\x7bdata, transformation\x7d`). -/
inductive PChild where
  | run (r : Run)
  | image (data : List Nat) (width height : JQ)
deriving DecidableEq

/-- A docx `Paragraph` as configured by `fileProcessor.ts`.  The constant
border objects of the source (blockquote left border, horizontal-rule
bottom border) are modelled as presence flags. -/
structure Paragraph where
  children : List PChild := []
  alignment : Option AlignmentType := none
  spacing : ParaSpacing := {}
  indent : Option ParaIndent := none
  shadingFill : Option String := none
  borderLeft : Bool := false
  borderBottom : Bool := false
deriving DecidableEq

/-- The subset of the `TextRunConfig` interface that flows through the
`baseConfig` parameter of `parseInlineTokens` / `parseTextWithFormat`. -/
structure BaseConfig where
  bold : Option Bool := none
  italics : Option Bool := none
  strike : Option Bool := none
  color : Option String := none
  font : Option String := none
  size : Option JQ := none
deriving DecidableEq

/-- The classes of the combined inline regex of `parseTextWithFormat`
(`fileProcessor.ts` line 494): block math, inline math, code span, bold. -/
inductive InlineMatch where
  | blockMath (content : List Char)
  | inlineMath (content : List Char)
  | codeSpan (content : List Char)
  | boldSpan (content : List Char)
deriving DecidableEq

/-- Lazy search for the closing `$$` of the block-math alternative
`\$\$(.+?)\$\$` (with the `s` flag the dot matches every character):
`acc` is the reversed content consumed so far, which is non-empty at every
check, so the returned group is non-empty. -/
def findLazyDD (acc : List Char) : List Char → Option (List Char × List Char)
  | '$' :: '$' :: rest => some (acc.reverse, rest)
  | c :: rest => findLazyDD (c :: acc) rest
  | [] => none

/-- Lazy search for the closing `$` of the inline-math alternative
`\$(?!\$)(.+?)(?<!\$)\$`: a candidate closing `$` is rejected (and absorbed
into the group) while the group's last character is itself `$`. -/
def findLazyD (acc : List Char) : List Char → Option (List Char × List Char)
  | '$' :: rest =>
    if acc.head? = some '$' then findLazyD ('$' :: acc) rest
    else some (acc.reverse, rest)
  | c :: rest => findLazyD (c :: acc) rest
  | [] => none

/-- Lazy search for the closing `**` of the bold alternative `\*\*(.+?)\*\*`. -/
def findLazyBB (acc : List Char) : List Char → Option (List Char × List Char)
  | '*' :: '*' :: rest => some (acc.reverse, rest)
  | c :: rest => findLazyBB (c :: acc) rest
  | [] => none

/-- Match attempt for the code-span alternative `` (`+)([^`]+)\5 ``: a
greedy run of `m` backticks, a non-empty backtick-free group, and a
backreference requiring at least `m` further backticks (any excess stays in
the input).  A shorter opening run can never match, because the group would
then have to start with a backtick. -/
def tryCodeMatch (s : List Char) : Option (List Char × List Char) :=
  let m := (s.takeWhile (fun c => c == '`')).length
  let afterTicks := s.dropWhile (fun c => c == '`')
  let content := afterTicks.takeWhile (fun c => c != '`')
  let afterContent := afterTicks.dropWhile (fun c => c != '`')
  let j := (afterContent.takeWhile (fun c => c == '`')).length
  if content ≠ [] ∧ m ≤ j then
    some (content, List.replicate (j - m) '`' ++ afterContent.dropWhile (fun c => c == '`'))
  else none

/-- Try the combined regex
`(\$\$(.+?)\$\$)|(\$(?!\$)(.+?)(?<!\$)\$)|(`+)([^`]+)\5|\*\*(.+?)\*\*`
at the head of the input, honouring ordered-alternation semantics.  The
four alternatives start with mutually exclusive prefixes (`$$`, `$` not
followed by `$`, a backtick, `**`), so at most one can apply at a given
position. -/
def tryInlineMatch : List Char → Option (InlineMatch × List Char)
  | '$' :: '$' :: rest =>
    (match rest with
     | c :: r =>
       (match findLazyDD [c] r with
        | some (content, rem) => some (.blockMath content, rem)
        | none => none)
     | [] => none)
  | '$' :: c :: rest =>
    (match findLazyD [c] rest with
     | some (content, rem) => some (.inlineMath content, rem)
     | none => none)
  | '`' :: rest =>
    (match tryCodeMatch ('`' :: rest) with
     | some (content, rem) => some (.codeSpan content, rem)
     | none => none)
  | '*' :: '*' :: c :: rest =>
    (match findLazyBB [c] rest with
     | some (content, rem) => some (.boldSpan content, rem)
     | none => none)
  | _ => none

/-- One element of the scan of `parseTextWithFormat`: either a character of
plain text (between matches) or one regex match. -/
inductive Piece where
  | ch (c : Char)
  | found (m : InlineMatch)
deriving DecidableEq

/-- The `regex.exec` loop: find successive leftmost matches, emitting the
characters between them verbatim. -/
def scanInline : Nat → List Char → List Piece
  | 0, _ => []
  | _ + 1, [] => []
  | fuel + 1, c :: rest =>
    match tryInlineMatch (c :: rest) with
    | some (m, rem) => .found m :: scanInline fuel rem
    | none => .ch c :: scanInline fuel rest

/-- The plain-text run of `parseTextWithFormat` (the text before a match,
the trailing text, and the whole-text fallback all use this construction). -/
def normalRun (ps : ParagraphStyleJS) (bc : BaseConfig) (text : String) : Run :=
  { text := text
    font := some (bc.font.getD (jsOrO ps.fontFamily "宋体"))
    size := some (jsOrQ bc.size ((jsOrQ ps.fontSize 12) * 2))
    bold := bc.bold
    italics := bc.italics
    color := bc.color }

/-- The styled run `parseTextWithFormat` emits for one regex match: math in
Cambria Math italics (content transcoded), code in shaded Courier New, bold
text in the base font. -/
def styledRun (ps : ParagraphStyleJS) (bc : BaseConfig) :
    InlineMatch → Run
  | .blockMath content =>
    { text := String.mk (latexToUnicodeTextL content)
      font := some "Cambria Math"
      size := some (jsOrQ bc.size ((jsOrQ ps.fontSize 12) * 2))
      italics := some true }
  | .inlineMath content =>
    { text := String.mk (latexToUnicodeTextL content)
      font := some "Cambria Math"
      size := some (jsOrQ bc.size ((jsOrQ ps.fontSize 12) * 2))
      italics := some true }
  | .codeSpan content =>
    { text := String.mk content
      font := some "Courier New"
      size := some (jsOrQ bc.size ((jsOrQ ps.fontSize 12) * 2))
      shading := some "F0F0F0" }
  | .boldSpan content =>
    { text := String.mk content
      bold := some true
      font := some (bc.font.getD (jsOrO ps.fontFamily "宋体"))
      size := some (jsOrQ bc.size ((jsOrQ ps.fontSize 12) * 2))
      italics := bc.italics
      color := bc.color }

/-- Assemble the run list from the scanned pieces, mirroring the source's
`exec` loop: the accumulated characters before a match become one normal
run (none when the gap is empty), each match becomes one styled run, and
the trailing characters become one final normal run. -/
def assembleRuns (ps : ParagraphStyleJS) (bc : BaseConfig)
    (acc : List Char) : List Piece → List Run
  | [] =>
    if acc = [] then [] else [normalRun ps bc (String.mk acc)]
  | .ch c :: rest => assembleRuns ps bc (acc ++ [c]) rest
  | .found m :: rest =>
    (if acc = [] then [] else [normalRun ps bc (String.mk acc)])
      ++ styledRun ps bc m :: assembleRuns ps bc [] rest

/-- The `parseTextWithFormat` inline run builder of `fileProcessor.ts`
(lines 486–583): resolve the paragraph style, run the combined regex over
the text, and emit the interleaved normal/styled runs; if no run was
produced (which happens exactly for empty input), fall back to a single
normal run carrying the whole text. -/
def parseTextWithFormat (text : String) (fs : Option FormatSettingsJS)
    (bc : BaseConfig) : List Run :=
  let ps := paraStyleOf fs
  let runs := assembleRuns ps bc [] (scanInline text.data.length text.data)
  if runs = [] then [normalRun ps bc text] else runs

/-- C1 (counterexample): on the input
`"**bold** and $x^2$ and `code`"` the inline run builder
`parseTextWithFormat` does not produce 6 runs — the match for `**bold**`
starts at position 0, so no leading plain run exists and the output has
exactly 5 runs. -/
theorem c1_run_count_is_not_six :
    (parseTextWithFormat "**bold** and $x^2$ and `code`" none {}).length ≠ 6 := by
  decide

/-- C1 (amended): on the input `"**bold** and $x^2$ and `code`"` the inline
run builder `parseTextWithFormat` produces exactly 5 runs, in order: a bold
run "bold", a plain run " and ", a math-styled (Cambria Math, italic) run
with transcoded text "x²", a plain run " and ", and a code-styled
(Courier New, shaded) run "code" — no runs dropped or merged across style
boundaries. -/
theorem c1_run_list :
    parseTextWithFormat "**bold** and $x^2$ and `code`" none {} =
      [{ text := "bold", bold := some true, font := some "宋体",
         size := some 24 },
       { text := " and ", font := some "宋体", size := some 24 },
       { text := "x²", font := some "Cambria Math", size := some 24,
         italics := some true },
       { text := " and ", font := some "宋体", size := some 24 },
       { text := "code", font := some "Courier New", size := some 24,
         shading := some "F0F0F0" }] := by
  decide

/-- C2: the formula transcoder `latexToUnicodeText` satisfies the three
reference examples: `\alpha^2` becomes `α²`, `\frac\x7b1\x7d\x7b2\x7d`
becomes `(1/2)`, and `x_\x7b1\x7d` becomes `x₁`. -/
theorem c2_transcoder_reference_examples :
    latexToUnicodeText "\\alpha^2" = "α²" ∧
    latexToUnicodeText "\\frac\x7b1\x7d\x7b2\x7d" = "(1/2)" ∧
    latexToUnicodeText "x_\x7b1\x7d" = "x₁" := by
  refine ⟨by decide, by decide, by decide⟩

/-- C9: the formula transcoder `latexToUnicodeText` is not idempotent:
for the input `"\x7b^\x7d2"` the first pass strips the braces, producing
`"^2"`, and a second pass then rewrites the caret-digit pair to `"²"`. -/
theorem c9_transcoder_not_idempotent :
    ∃ x : String,
      latexToUnicodeText (latexToUnicodeText x) ≠ latexToUnicodeText x := by
  refine ⟨"\x7b^\x7d2", ?_⟩
  decide

/-- Concatenating map (a transparent, structurally recursive `flatMap`). -/
def flatList (f : α → List β) : List α → List β
  | [] => []
  | x :: xs => f x ++ flatList f xs

/-- A token object as produced by the external `marked.lexer` collaborator
and consumed by `markdownToParagraphs`: the fields the conversion code
reads, with absent string fields collapsed into `""` (the code only ever
tests their truthiness or concatenates them), absent `depth` as `0` (the
code computes `token.depth || 1`, and `0` is falsy exactly like
`undefined`), and absent arrays as `none`. -/
inductive TokObj where
  | mk (type : String) (text : String) (raw : String) (depth : Nat)
      (ordered : Bool) (href : String) (altText : String)
      (tokens : Option (List TokObj))
      (items : Option (List TokObj))
      (header : Option (List TokObj))
      (rows : Option (List (List TokObj)))

/-- Token field `type`. -/
def TokObj.type : TokObj → String
  | .mk t _ _ _ _ _ _ _ _ _ _ => t

/-- Token field `text`. -/
def TokObj.text : TokObj → String
  | .mk _ t _ _ _ _ _ _ _ _ _ => t

/-- Token field `raw`. -/
def TokObj.raw : TokObj → String
  | .mk _ _ r _ _ _ _ _ _ _ _ => r

/-- Token field `depth`. -/
def TokObj.depth : TokObj → Nat
  | .mk _ _ _ d _ _ _ _ _ _ _ => d

/-- Token field `ordered`. -/
def TokObj.ordered : TokObj → Bool
  | .mk _ _ _ _ o _ _ _ _ _ _ => o

/-- Token field `href`. -/
def TokObj.href : TokObj → String
  | .mk _ _ _ _ _ h _ _ _ _ _ => h

/-- Token field `alt`. -/
def TokObj.altText : TokObj → String
  | .mk _ _ _ _ _ _ a _ _ _ _ => a

/-- Token field `tokens` (inline / inner sub-tokens). -/
def TokObj.tokens : TokObj → Option (List TokObj)
  | .mk _ _ _ _ _ _ _ ts _ _ _ => ts

/-- Token field `items` (list items). -/
def TokObj.items : TokObj → Option (List TokObj)
  | .mk _ _ _ _ _ _ _ _ its _ _ => its

/-- Token field `header` (table header cells). -/
def TokObj.header : TokObj → Option (List TokObj)
  | .mk _ _ _ _ _ _ _ _ _ h _ => h

/-- Token field `rows` (table body rows of cells). -/
def TokObj.rows : TokObj → Option (List (List TokObj))
  | .mk _ _ _ _ _ _ _ _ _ _ r => r

/-- A token carrying only `type`, `text` and `raw`. -/
def simpleTok (ty text raw : String) : TokObj :=
  .mk ty text raw 0 false "" "" none none none none

/-- An inline `text` token without sub-tokens. -/
def textTok (text : String) : TokObj :=
  simpleTok "text" text ""

/-- An inline `text` token with structured sub-tokens. -/
def textTokWith (text : String) (children : List TokObj) : TokObj :=
  .mk "text" text "" 0 false "" "" (some children) none none none

/-- A `heading` token. -/
def headingTok (depth : Nat) (text : String) : TokObj :=
  .mk "heading" text "" depth false "" "" none none none none

/-- A `paragraph` token (optionally with inline sub-tokens). -/
def paragraphTok (raw text : String) (children : Option (List TokObj)) :
    TokObj :=
  .mk "paragraph" text raw 0 false "" "" children none none none

/-- An `image` token (`href` reference, `text` alt text). -/
def imageTok (href text : String) : TokObj :=
  .mk "image" text "" 0 false href "" none none none none

/-- A `list` token. -/
def listTok (ordered : Bool) (items : List TokObj) : TokObj :=
  .mk "list" "" "" 0 ordered "" "" none (some items) none none

/-- A list-item token (its `tokens` carry the item content). -/
def itemTok (text : String) (children : List TokObj) : TokObj :=
  .mk "list_item" text "" 0 false "" "" (some children) none none none

/-- The child-flattening `token.tokens.map(t => t.text || t.raw || '').join('')`
used by heading, strong/em/del, link and table-cell extraction. -/
def joinChildrenText (children : List TokObj) : String :=
  String.join (children.map (fun t => jsOr t.text t.raw))

/-- Strip one leading and one trailing occurrence of `pat`, the behaviour
of `raw.replace(/^<pat>|<pat>$/g, '')`. -/
def stripAffixL (pat s : List Char) : List Char :=
  let s1 := if mdStartsWith pat s then s.drop pat.length else s
  let r := s1.reverse
  let s2 := if mdStartsWith pat.reverse r then r.drop pat.length else r
  s2.reverse

/-- String wrapper for `stripAffixL`. -/
def stripAffix (pat s : String) : String :=
  String.mk (stripAffixL pat.data s.data)

/-- Text extraction of the `strong` arm of `parseInlineTokens`:
`token.text`, else the joined sub-token texts, else `token.raw` with the
`**` markers stripped. -/
def strongTextOf (tok : TokObj) : String :=
  jsOr tok.text
    (jsOr (match tok.tokens with
           | some ch => joinChildrenText ch
           | none => "")
      (if tok.raw = "" then "" else stripAffix "**" tok.raw))

/-- Text extraction of the `em` arm. -/
def emTextOf (tok : TokObj) : String :=
  jsOr tok.text
    (jsOr (match tok.tokens with
           | some ch => joinChildrenText ch
           | none => "")
      (if tok.raw = "" then "" else stripAffix "*" tok.raw))

/-- Text extraction of the `del` arm. -/
def delTextOf (tok : TokObj) : String :=
  jsOr tok.text
    (jsOr (match tok.tokens with
           | some ch => joinChildrenText ch
           | none => "")
      (if tok.raw = "" then "" else stripAffix "~~" tok.raw))

/-- Text extraction of the `link` arm (`token.text`, else joined
sub-tokens). -/
def linkTextOf (tok : TokObj) : String :=
  jsOr tok.text
    (match tok.tokens with
     | some ch => joinChildrenText ch
     | none => "")

/-- The per-token dispatch of `parseInlineTokens` (`fileProcessor.ts`
lines 207–328). -/
def inlineTokenRuns (bc : BaseConfig) (fs : Option FormatSettingsJS)
    (tok : TokObj) : List Run :=
  let ps := paraStyleOf fs
  if tok.type = "text" then
    if tok.text = "" then [] else parseTextWithFormat tok.text fs bc
  else if tok.type = "strong" then
    [{ text := strongTextOf tok, bold := some true,
       font := some (bc.font.getD (jsOrO ps.fontFamily "宋体")),
       size := some (jsOrQ bc.size ((jsOrQ ps.fontSize 12) * 2)),
       italics := bc.italics, strike := bc.strike, color := bc.color }]
  else if tok.type = "em" then
    [{ text := emTextOf tok, italics := some true,
       font := some (bc.font.getD (jsOrO ps.fontFamily "宋体")),
       size := some (jsOrQ bc.size ((jsOrQ ps.fontSize 12) * 2)),
       bold := bc.bold, strike := bc.strike, color := bc.color }]
  else if tok.type = "del" then
    [{ text := delTextOf tok, strike := some true,
       font := some (bc.font.getD (jsOrO ps.fontFamily "宋体")),
       size := some (jsOrQ bc.size ((jsOrQ ps.fontSize 12) * 2)),
       bold := bc.bold, italics := bc.italics, color := bc.color }]
  else if tok.type = "codespan" then
    [{ text := tok.text, font := some "Courier New",
       size := some ((jsOrQ ps.fontSize 12) * 2), shading := some "F5F5F5" }]
  else if tok.type = "link" then
    [{ text := linkTextOf tok, color := some "0563C1", underline := true,
       font := some (bc.font.getD (jsOrO ps.fontFamily "宋体")),
       size := some (jsOrQ bc.size ((jsOrQ ps.fontSize 12) * 2)) }]
  else if tok.type = "br" then
    [{ lineBreak := some 1 }]
  else
    let tc := jsOr tok.text tok.raw
    if tc = "" then [] else parseTextWithFormat tc fs bc

/-- The `parseInlineTokens` inline builder: dispatch over the token list,
concatenating each token's runs. -/
def parseInlineTokens (tokens : List TokObj) (bc : BaseConfig)
    (fs : Option FormatSettingsJS) : List Run :=
  flatList (inlineTokenRuns bc fs) tokens

/-- Heading text extraction of `createHeadingParagraph`: `token.text`,
falling back to the joined sub-token texts. -/
def headingTextOf (tok : TokObj) : String :=
  jsOr tok.text
    (match tok.tokens with
     | some children => joinChildrenText children
     | none => "")

/-- The `createHeadingParagraph` builder (`fileProcessor.ts` lines
349–378): one paragraph with one bold run carrying the flattened heading
text, styled directly from the chosen heading style record — the font name
and the doubled font size are read off the record with no per-field
fallback, so they are `undefined` (here `none`) when the caller supplied a
partial record. -/
def createHeadingParagraph (tok : TokObj) (fs : Option FormatSettingsJS) :
    Paragraph :=
  let hs := chosenHeadingStyle fs tok.depth
  { children := [.run { text := headingTextOf tok, bold := some true,
                         font := hs.fontFamily,
                         size := hs.fontSize.map (fun x => x * 2) }],
    alignment := some (getAlignment hs.alignment),
    spacing := { before := hs.spacingBefore.map (fun x => x * 20),
                 after := hs.spacingAfter.map (fun x => x * 20),
                 line := hs.lineHeight.map (fun x => x * 240) } }

/-- The `createParagraphElement` builder (`fileProcessor.ts` lines
586–606): run the inline scanner over the paragraph's raw text and attach
paragraph spacing/indent; note that `paragraphSpacing` and
`firstLineIndent` fall back to `0`, not to the built-in defaults. -/
def createParagraphElement (tok : TokObj) (fs : Option FormatSettingsJS) :
    Paragraph :=
  let ps := paraStyleOf fs
  let rawText := jsOr tok.raw tok.text
  let runs := parseTextWithFormat rawText fs {}
  let fli := jsOrQ ps.firstLineIndent 0
  { children := runs.map .run,
    spacing := { after := some ((jsOrQ ps.paragraphSpacing 0) * 20),
                 line := some ((jsOrQ ps.lineHeight ⟨3, 2⟩) * 240) },
    indent :=
      if fli.pos then
        some { firstLine := some (fli * (jsOrQ ps.fontSize 12) * 20) }
      else none }

/-- The italic, muted base configuration every blockquote inner paragraph
passes to `parseInlineTokens`. -/
def bqBaseConfig : BaseConfig :=
  { color := some "666666", italics := some true }

/-- The `createBlockquoteParagraphs` builder (`fileProcessor.ts` lines
609–668): one bordered, indented paragraph per inner `paragraph` token
(inline content via `parseInlineTokens` when sub-tokens exist, otherwise a
single explicit run), with a raw-text fallback paragraph when no inner
paragraph was found. -/
def createBlockquoteParagraphs (tok : TokObj) (fs : Option FormatSettingsJS) :
    List Paragraph :=
  let ps := paraStyleOf fs
  let inner := (tok.tokens.getD []).filterMap (fun it =>
    if it.type = "paragraph" then
      some { children :=
               (match it.tokens with
                | some ch => parseInlineTokens ch bqBaseConfig fs
                | none =>
                  [{ text := it.text, color := some "666666",
                       italics := some true,
                       font := some (jsOrO ps.fontFamily "宋体"),
                       size :=
                         some ((jsOrQ ps.fontSize 12) * 2) }]).map PChild.run,
             spacing := { before := some 120, after := some 120 },
             indent := some { left := some 720 },
             borderLeft := true }
    else (none : Option Paragraph))
  if inner = [] then
    [{ children := [.run { text := jsOr tok.text tok.raw,
                            color := some "666666",
                            italics := some true }],
       indent := some { left := some 720 },
       borderLeft := true }]
  else inner

/-- One shaded monospaced line of `createCodeBlockParagraphs`; blank lines
carry a single-space placeholder, the first and last line get the
surrounding spacing. -/
def codeLinePara (total idx : Nat) (line : String) : Paragraph :=
  { children := [.run { text := if line = "" then " " else line,
                         font := some "Courier New", size := some 20 }],
    spacing := { before := some (if idx = 0 then 120 else 0),
                 after := some (if idx = total - 1 then 120 else 0),
                 line := some 240 },
    shadingFill := some "F8F8F8",
    indent := some { left := some 360, right := some 360 } }

/-- The indexed `forEach` of `createCodeBlockParagraphs`. -/
def codeLinesLoop (total : Nat) : Nat → List String → List Paragraph
  | _, [] => []
  | idx, line :: rest => codeLinePara total idx line :: codeLinesLoop total (idx + 1) rest

/-- The `createCodeBlockParagraphs` builder (`fileProcessor.ts` lines
671–699): split the code text on newlines, one paragraph per physical
line. -/
def createCodeBlockParagraphs (tok : TokObj) : List Paragraph :=
  let lines := tok.text.splitOn "\n"
  codeLinesLoop lines.length 0 lines

/-- The bullet glyph array `['•', '◦', '▪']` of `createListItemParagraphs`
in `fileProcessor.ts` (line 707). -/
def bulletChars : List String :=
  ["•", "◦", "▪"]

/-- The bullet glyph array `['●', '○', '▪']` of the superseded
`createListItemParagraphs` variant (`src/unnamed/part_003`, line 702). -/
def bulletCharsLegacy : List String :=
  ["●", "○", "▪"]

/-- The item marker computed per item: `"N. "` for ordered lists (1-based),
otherwise the level-cycled bullet glyph followed by a space. -/
def itemMarkerStr (isOrdered : Bool) (level index : Nat) : String :=
  if isOrdered then toString (index + 1) ++ ". "
  else (bulletChars.getD (level % 3) "") ++ " "

/-- The marker run prepended (`runs.unshift`) to each list item. -/
def markerRun (ps : ParagraphStyleJS) (s : String) : Run :=
  { text := s, font := some (jsOrO ps.fontFamily "宋体"),
    size := some ((jsOrQ ps.fontSize 12) * 2) }

/-- The base run list of one list item (before the marker is prepended):
structured `text`/`paragraph` children go through `parseInlineTokens`,
other children with text go through `parseTextWithFormat`, and an item
whose children produced nothing falls back to `parseTextWithFormat` over
`item.text`. -/
def itemRunsBase (fs : Option FormatSettingsJS) (item : TokObj) : List Run :=
  let fromTokens := flatList (fun inner =>
    if inner.type = "text" ∧ inner.tokens.isSome then
      parseInlineTokens (inner.tokens.getD []) {} fs
    else if inner.type = "paragraph" ∧ inner.tokens.isSome then
      parseInlineTokens (inner.tokens.getD []) {} fs
    else if inner.text ≠ "" then
      parseTextWithFormat inner.text fs {}
    else []) (item.tokens.getD [])
  if fromTokens = [] ∧ item.text ≠ "" then parseTextWithFormat item.text fs {}
  else fromTokens

/-- One emitted list-item paragraph: marker run plus content runs, a
3-point spacing, and a level-proportional hanging indent. -/
def itemParagraph (fs : Option FormatSettingsJS) (isOrdered : Bool)
    (level index : Nat) (item : TokObj) : Paragraph :=
  let ps := paraStyleOf fs
  { children :=
      (markerRun ps (itemMarkerStr isOrdered level index)
        :: itemRunsBase fs item).map .run,
    spacing := { after := some 60 },
    indent := some { left := some ((720 : JQ) * JQ.ofNat (level + 1)),
                     hanging := some 360 } }

/-- The nested `list` sub-tokens of one item. -/
def listChildrenOf (item : TokObj) : List TokObj :=
  (item.tokens.getD []).filter (fun t => t.type == "list")

/-- The indexed `items.forEach` of `createListItemParagraphs`: each item's
paragraph, immediately followed by the flattened paragraphs of its nested
sub-lists (produced by `nested`, which recurses at `level + 1`), then the
remaining items. -/
def listItemsLoop (fs : Option FormatSettingsJS) (isOrdered : Bool)
    (level : Nat) (nested : TokObj → List Paragraph) :
    Nat → List TokObj → List Paragraph
  | _, [] => []
  | index, item :: rest =>
    (itemParagraph fs isOrdered level index item
       :: flatList nested (listChildrenOf item))
      ++ listItemsLoop fs isOrdered level nested (index + 1) rest

/-- The recursive `createListItemParagraphs` builder (`fileProcessor.ts`
lines 702–763).  The `fuel` argument bounds the list-nesting depth the
recursion may descend (the TypeScript recursion is bounded by the token
tree; any fuel at least the tree's list-nesting depth yields the same
result). -/
def createListItemParagraphs :
    Nat → TokObj → Nat → Option FormatSettingsJS → List Paragraph
  | 0, _, _, _ => []
  | fuel + 1, tok, level, fs =>
    listItemsLoop fs tok.ordered level
      (fun l => createListItemParagraphs fuel l (level + 1) fs)
      0 (tok.items.getD [])

/-- The `createHorizontalRuleParagraph` builder: an empty run with a bottom
border and symmetric spacing. -/
def createHorizontalRuleParagraph : Paragraph :=
  { children := [.run { text := "" }],
    spacing := { before := some 240, after := some 240 },
    borderBottom := true }

/-- A docx `TableCell` as configured by `createTableElement`. -/
structure TableCellM where
  runs : List Run := []
  alignment : Option AlignmentType := none
  shadingFill : Option String := none
deriving DecidableEq

/-- A docx `Table` as configured by `createTableElement` (the constant
full-width and border options are identical for every table and are not
modelled). -/
structure Table where
  headerRow : Option (List TableCellM) := none
  body : List (List TableCellM) := []
deriving DecidableEq

/-- Cell text extraction: `cell.text || (cell.tokens ? join : '')`. -/
def cellTextOf (cell : TokObj) : String :=
  jsOr cell.text
    (match cell.tokens with
     | some ts => joinChildrenText ts
     | none => "")

/-- The `createTableElement` builder (`fileProcessor.ts` lines 785–844):
bold, centered, shaded header cells; plain body cells; each row keeps
whatever cell count the source row declares. -/
def createTableElement (tok : TokObj) (fs : Option FormatSettingsJS) :
    Table :=
  let ps := paraStyleOf fs
  { headerRow := tok.header.map (fun cells => cells.map (fun cell =>
      { runs := [{ text := cellTextOf cell, bold := some true,
                   font := some (jsOrO ps.fontFamily "宋体"),
                   size := some ((jsOrQ ps.fontSize 12) * 2) }],
        alignment := some .CENTER,
        shadingFill := some "F0F0F0" })),
    body := (tok.rows.getD []).map (fun row => row.map (fun cell =>
      { runs := [{ text := cellTextOf cell,
                   font := some (jsOrO ps.fontFamily "宋体"),
                   size := some ((jsOrQ ps.fontSize 12) * 2) }] })) }

/-- A block element of the conversion output: a paragraph or a table. -/
inductive Element where
  | para (p : Paragraph)
  | table (t : Table)
deriving DecidableEq

/-- An image resolver: the behaviour of the image-preloading phase of
`markdownToParagraphs` (local read / asset lookup / network fetch),
abstracted as a map from the reference string to the fetched bytes; `none`
covers every failure the source catches (missing file, non-success HTTP
status, network error). -/
def Resolver : Type :=
  String → Option (List Nat)

/-- Lookup of `imageMap.get(imagePath + '::__buffer__')`: an empty
reference is never collected (the `if (imagePath)` guard), so its lookup
misses; otherwise the preloaded bytes are found exactly when resolution
succeeded. -/
def loadedBuffer (r : Resolver) (ref : String) : Option (List Nat) :=
  if ref = "" then none else r ref

/-- Alt-text extraction `token.text || token.alt || '图片'`. -/
def altTextOf (tok : TokObj) : String :=
  jsOr tok.text (jsOr tok.altText "图片")

/-- The gray italic placeholder run `[图片: alt](ref)` emitted when an
image has no usable bytes; it carries the alt text and the original
reference verbatim. -/
def placeholderRun (alt ref : String) : Run :=
  { text := "[图片: " ++ alt ++ "](" ++ ref ++ ")",
    color := some "999999", italics := some true }

/-- The placeholder paragraph wrapping `placeholderRun`. -/
def placeholderPara (alt ref : String) : Paragraph :=
  { children := [.run (placeholderRun alt ref)] }

/-- The centered fixed-box (400×300) paragraph wrapping a successfully
embedded image. -/
def imageParagraph (b : List Nat) : Paragraph :=
  { children := [.image b 400 300],
    alignment := some .CENTER,
    spacing := { before := some 200, after := some 200 } }

/-- The image emission shared by the top-level `image` token case and the
image children of a paragraph: an embedded image when the preloaded buffer
exists and is non-empty, otherwise the placeholder paragraph. -/
def imageElements (r : Resolver) (tok : TokObj) : List Element :=
  let ref := tok.href
  let alt := altTextOf tok
  match loadedBuffer r ref with
  | some b =>
    if 0 < b.length then [.para (imageParagraph b)]
    else [.para (placeholderPara alt ref)]
  | none => [.para (placeholderPara alt ref)]

/-- The `\x7braw: innerToken.text, text: innerToken.text\x7d` object passed to
`createParagraphElement` for the text siblings of an inline image. -/
def textRawTok (s : String) : TokObj :=
  .mk "" s s 0 false "" "" none none none none

/-- The `paragraph` case of `markdownToParagraphs`: a paragraph containing
an image token switches to per-child emission (images and non-blank text
children, in source order); otherwise one ordinary paragraph element. -/
def paragraphElements (r : Resolver) (fs : Option FormatSettingsJS)
    (tok : TokObj) : List Element :=
  match tok.tokens with
  | some children =>
    if children.any (fun t => t.type == "image") then
      flatList (fun c =>
        if c.type == "image" then imageElements r c
        else if c.type == "text" && !(jsTrim c.text == "") then
          [.para (createParagraphElement (textRawTok c.text) fs)]
        else []) children
    else [.para (createParagraphElement tok fs)]
  | none => [.para (createParagraphElement tok fs)]

/-- Scanner for the tag-stripping replacement
`htmlText.replace(/<[^>]*>/g, '')`. -/
def stripTagsAux : Nat → List Char → List Char
  | 0, s => s
  | _ + 1, [] => []
  | fuel + 1, '<' :: rest =>
    (match splitBeforeChar '>' rest with
     | some (_, rest2) => stripTagsAux fuel rest2
     | none => '<' :: stripTagsAux fuel rest)
  | fuel + 1, c :: rest => c :: stripTagsAux fuel rest

/-- Tag stripping on strings. -/
def stripTags (s : String) : String :=
  String.mk (stripTagsAux s.data.length s.data)

/-- The `html` case: when the token text is non-blank, one paragraph with
the tags stripped (here the paragraph style record is reached through
optional chaining with field-level default fallback). -/
def htmlElements (fs : Option FormatSettingsJS) (tok : TokObj) :
    List Element :=
  let psOpt := fs.bind FormatSettingsJS.paragraph
  if tok.text ≠ "" ∧ jsTrim tok.text ≠ "" then
    [.para { children :=
               [.run { text := stripTags tok.text,
                       font :=
                         some (jsOrO (psOpt.bind ParagraphStyleJS.fontFamily) "宋体"),
                       size :=
                         some ((jsOrQ (psOpt.bind ParagraphStyleJS.fontSize) 12) * 2) }] }]
  else []

/-- The `default` case for unrecognized token kinds: a plain paragraph from
`token.text` when present, otherwise nothing. -/
def defaultElements (fs : Option FormatSettingsJS) (tok : TokObj) :
    List Element :=
  let psOpt := fs.bind FormatSettingsJS.paragraph
  if tok.text ≠ "" then
    [.para { children :=
               [.run { text := tok.text,
                       font :=
                         some (jsOrO (psOpt.bind ParagraphStyleJS.fontFamily) "宋体"),
                       size :=
                         some ((jsOrQ (psOpt.bind ParagraphStyleJS.fontSize) 12) * 2) }] }]
  else []

/-- The empty paragraph pushed for a `space` token. -/
def emptyParagraph : Paragraph :=
  { children := [.run { text := "" }] }

/-- The `switch (tokenType)` body of the token loop of
`markdownToParagraphs` (`fileProcessor.ts` lines 944–1112): the elements
one token contributes.  `fuel` bounds the nesting depth of the list case. -/
def buildTokenElements (fuel : Nat) (r : Resolver)
    (fs : Option FormatSettingsJS) (tok : TokObj) : List Element :=
  if tok.type = "heading" then [.para (createHeadingParagraph tok fs)]
  else if tok.type = "paragraph" then paragraphElements r fs tok
  else if tok.type = "blockquote" then
    (createBlockquoteParagraphs tok fs).map .para
  else if tok.type = "code" then (createCodeBlockParagraphs tok).map .para
  else if tok.type = "list" then
    (createListItemParagraphs fuel tok 0 fs).map .para
  else if tok.type = "table" then [.table (createTableElement tok fs)]
  else if tok.type = "hr" then [.para createHorizontalRuleParagraph]
  else if tok.type = "image" then imageElements r tok
  else if tok.type = "space" then [.para emptyParagraph]
  else if tok.type = "html" then htmlElements fs tok
  else defaultElements fs tok

/-- The fallback text `token.text || token.raw` the catch block reads. -/
def tokText (tok : TokObj) : String :=
  jsOr tok.text tok.raw

/-- The best-effort plain-text paragraph the catch block substitutes for a
token whose construction threw. -/
def fallbackParagraph (fs : Option FormatSettingsJS) (tok : TokObj) :
    Paragraph :=
  let psOpt := fs.bind FormatSettingsJS.paragraph
  { children :=
      [.run { text := tokText tok,
              font := some (jsOrO (psOpt.bind ParagraphStyleJS.fontFamily) "宋体"),
              size := some ((jsOrQ (psOpt.bind ParagraphStyleJS.fontSize) 12) * 2) }] }

/-- The `try`/`catch` token-iteration boundary of `markdownToParagraphs`:
`build` returns the elements a token pushed before completing or throwing,
together with a flag telling whether it threw; the elements already pushed
always remain, and a throwing token additionally contributes the fallback
paragraph — but only when its `text || raw` is truthy. -/
def tokenIterationBoundary (fs : Option FormatSettingsJS)
    (build : TokObj → List Element × Bool) : List TokObj → List Element
  | [] => []
  | tok :: rest =>
    (build tok).1
      ++ (if (build tok).2 then
            (if tokText tok = "" then [] else [.para (fallbackParagraph fs tok)])
          else [])
      ++ tokenIterationBoundary fs build rest

/-- The token walk of `markdownToParagraphs` applied to an already-lexed
token list: every embedded handler is total, so no token throws.  The
two-phase image preloading of the source is abstracted into the resolver
`r` — the walk's `imageMap` lookup for a reference succeeds exactly when
`r` resolved it (`loadedBuffer`). -/
def mdTokensToParagraphs (fuel : Nat) (r : Resolver)
    (fs : Option FormatSettingsJS) (tokens : List TokObj) : List Element :=
  tokenIterationBoundary fs (fun t => (buildTokenElements fuel r fs t, false))
    tokens

/-- The output format argument of `convertToFormat`. -/
inductive OutFormat where
  | doc
  | pdf
  | md
deriving DecidableEq

/-- What one call of `convertToFormat` writes: the markdown pass-through
content, the docx element sequence handed to the OOXML packer, or a PDF
(whose line-oriented drawing stream is produced by the external `pdfkit`
collaborator and is not modelled further). -/
inductive ConvertResult where
  | mdWrite (path : String) (content : String)
  | docWrite (path : String) (elements : List Element)
  | pdfWrite (path : String)
deriving DecidableEq

/-- The `convertToFormat` dispatcher (`fileProcessor.ts` lines 1133–1295).
`lex` is the external `marked.lexer` collaborator; the `Date.now()`-based
default file names are modelled by fixed placeholders (the claims under
verification concern the written content, not the path). -/
def convertToFormat (lex : String → List TokObj) (r : Resolver) (fuel : Nat)
    (mdContent : String) (format : OutFormat) (outputPath : Option String)
    (fs : Option FormatSettingsJS) : ConvertResult :=
  match format with
  | .md => .mdWrite (outputPath.getD "output.md") mdContent
  | .doc =>
    .docWrite (outputPath.getD "output.docx")
      (mdTokensToParagraphs fuel r fs (lex mdContent))
  | .pdf => .pdfWrite (outputPath.getD "output.pdf")

/-- The markdown content a conversion wrote, when the target was `md`. -/
def writtenMarkdown : ConvertResult → Option String
  | .mdWrite _ content => some content
  | _ => none

/-- C3: converting with target format `md` is a pass-through — the content
written is byte-identical to the input markdown string, for every input
string (and every lexer, resolver, fuel, output path and style sheet). -/
theorem c3_md_pass_through (lex : String → List TokObj) (r : Resolver)
    (fuel : Nat) (mdContent : String) (outputPath : Option String)
    (fs : Option FormatSettingsJS) :
    writtenMarkdown (convertToFormat lex r fuel mdContent .md outputPath fs)
      = some mdContent :=
  rfl

/-- C10: for every heading token, `createHeadingParagraph` produces exactly
one paragraph element containing exactly one text run; the run is bold,
uses the resolved heading style's font and (doubled) size, and its text is
the token's flattened plain text.  The concrete conjuncts show that inline
markup and `$...$` formulas inside a heading stay verbatim in that single
run — while the same text in an ordinary paragraph is split by
`parseTextWithFormat` into three styled runs. -/
theorem c10_heading_single_verbatim_run (tok : TokObj)
    (fs : Option FormatSettingsJS) :
    (createHeadingParagraph tok fs).children
        = [.run { text := headingTextOf tok, bold := some true,
                  font := (chosenHeadingStyle fs tok.depth).fontFamily,
                  size := (chosenHeadingStyle fs tok.depth).fontSize.map
                    (fun x => x * 2) }] ∧
    (∀ (fuel : Nat) (r : Resolver) (depth : Nat) (text : String),
        buildTokenElements fuel r fs (headingTok depth text)
          = [.para (createHeadingParagraph (headingTok depth text) fs)]) ∧
    headingTextOf (headingTok 2 "**b** $x^2$") = "**b** $x^2$" ∧
    (parseTextWithFormat "**b** $x^2$" none {}).map Run.text
      = ["b", " ", "x²"] := by
  refine ⟨rfl, fun fuel r depth text => rfl, by decide, by decide⟩

/-- A `FormatSettings` object supplying only a partial `heading1` record
(just a font size). -/
def headingOnlySettings : FormatSettingsJS :=
  ⟨none, some ⟨none, some 30, none, none, none, none⟩, none, none, none⟩

/-- A `FormatSettings` object supplying a partial `paragraph` record
(font, size and line height, but no spacing or indent). -/
def paragraphOnlySettings : FormatSettingsJS :=
  ⟨some ⟨some "宋体", some 12, some ⟨3, 2⟩, none, none⟩, none, none, none, none⟩

/-- C4 (counterexample): the fallback is record-level, not field-level.
With a `heading1` record carrying only a font size, the resolved heading
run's font is `none` (JavaScript `undefined` — the claim says no resolved
field is ever undefined) and the resolved alignment is `LEFT`, not the
documented `center` default; with a `paragraph` record missing its spacing
field, the paragraph's spacing-after resolves to `0` instead of the
documented 6-point default (120 twips, as produced when the record is
absent entirely). -/
theorem c4_partial_record_fields_not_defaulted :
    (createHeadingParagraph (headingTok 1 "T") (some headingOnlySettings)).children
        = [.run { text := "T", bold := some true, font := none,
                  size := some 60 }] ∧
    (createHeadingParagraph (headingTok 1 "T") (some headingOnlySettings)).alignment
        = some .LEFT ∧
    (defaultHeadingStyles 1).alignment = some .center ∧
    (createParagraphElement (paragraphTok "t" "t" none)
        (some paragraphOnlySettings)).spacing.after = some 0 ∧
    (createParagraphElement (paragraphTok "t" "t" none) none).spacing.after
        = some 120 := by
  refine ⟨by decide, by decide, by decide, by decide, by decide⟩

/-- C4 (amended): the fallback is record-level: whenever the settings
object is absent or the relevant style record slot is absent, the full
built-in default record is chosen, so every field of the resolved style
then equals the documented built-in default. -/
theorem c4_record_level_fallback (fs : Option FormatSettingsJS) (d : Nat) :
    (fs.bind (fun f => headingField f (headingKeyOf d)) = none →
       chosenHeadingStyle fs d = defaultHeadingStyles (headingKeyOf d)) ∧
    (fs.bind FormatSettingsJS.paragraph = none →
       paraStyleOf fs = defaultStyles) := by
  constructor
  · intro h
    unfold chosenHeadingStyle
    rw [h]
  · intro h
    cases fs with
    | none => rfl
    | some f =>
      show f.paragraph.getD defaultStyles = defaultStyles
      rw [show f.paragraph = none from h]
      rfl

/-- Witness for `c4_record_level_fallback` at the empty settings object. -/
theorem c4_record_level_fallback_witness :
    chosenHeadingStyle none 1 = defaultHeadingStyles 1 ∧
    paraStyleOf none = defaultStyles :=
  ⟨(c4_record_level_fallback none 1).1 rfl,
   (c4_record_level_fallback none 1).2 rfl⟩

/-- The element count the token-iteration boundary actually produces per
token: the elements the handler pushed before completing or throwing, plus
one fallback exactly when the token threw AND its `text || raw` is
non-empty. -/
def boundaryCount (build : TokObj → List Element × Bool) :
    List TokObj → Nat
  | [] => 0
  | tok :: rest =>
    (build tok).1.length
      + (if (build tok).2 ∧ tokText tok ≠ "" then 1 else 0)
      + boundaryCount build rest

/-- C5 (counterexample): a throwing token whose `text` and `raw` are both
empty contributes no fallback element — the guard `if (tokenText)` in the
catch block skips the substitution — so the overall element count is 0,
not the claimed (elements from non-throwing tokens) + (one per throwing
token) = 1. -/
theorem c5_empty_throwing_token_adds_nothing :
    (tokenIterationBoundary none (fun _ => ([], true))
        [simpleTok "boom" "" ""]).length ≠ 0 + 1 := by
  decide

/-- C5 (amended): for every token stream and every per-token builder
(returning the elements pushed before a possible throw and whether it
threw), the element count of the catch-at-iteration boundary equals the
sum over tokens of the pushed elements plus one fallback per throwing
token whose `text || raw` field is non-empty; a throwing token with both
fields empty contributes no fallback.  Conversion of the remaining tokens
always proceeds. -/
theorem c5_boundary_count (fs : Option FormatSettingsJS)
    (build : TokObj → List Element × Bool) (tokens : List TokObj) :
    (tokenIterationBoundary fs build tokens).length
      = boundaryCount build tokens := by
  induction tokens with
  | nil => rfl
  | cons tok rest ih =>
    simp only [tokenIterationBoundary, boundaryCount, List.length_append, ih]
    by_cases hthrew : (build tok).2
    · by_cases htext : tokText tok = ""
      · simp [hthrew, htext]
      · simp [hthrew, htext]
    · simp [hthrew]

/-- The level-0 unordered one-item list used as the C8 counterexample. -/
def c8SingleList : TokObj :=
  listTok false [itemTok "A" [textTok "A"]]

/-- Head-run text projection of a paragraph (the item marker for list-item
paragraphs). -/
def headRunText (p : Paragraph) : Option String :=
  match p.children with
  | .run r :: _ => some r.text
  | _ => none

/-- C8 (counterexample): in `fileProcessor.ts` the level-0 unordered item
marker is `"• "` (U+2022 BULLET), not `"● "` (U+25CF BLACK CIRCLE) as the
claim's glyph set `\x7b●, ○, ▪\x7d` requires; that set matches only the
superseded variant (`src/unnamed/part_003`). -/
theorem c8_level0_marker_is_small_bullet :
    (createListItemParagraphs 1 c8SingleList 0 none).map headRunText
        = [some "• "] ∧
    ("• " : String) ≠ "● " ∧
    bulletChars ≠ bulletCharsLegacy := by
  refine ⟨by decide, by decide, by decide⟩

/-- The marker sequence of consecutive items starting at a given index. -/
def markerSeq (isOrdered : Bool) (level : Nat) : Nat → Nat → List (Option String)
  | _, 0 => []
  | idx, n + 1 =>
    some (itemMarkerStr isOrdered level idx) :: markerSeq isOrdered level (idx + 1) n

/-- Auxiliary: over items without nested sub-lists the loop emits exactly
one paragraph per item, headed by its marker run. -/
theorem listItemsLoop_markers (fs : Option FormatSettingsJS)
    (isOrdered : Bool) (level : Nat) (nested : TokObj → List Paragraph)
    (items : List TokObj) (h : ∀ item ∈ items, listChildrenOf item = []) :
    ∀ idx, (listItemsLoop fs isOrdered level nested idx items).map headRunText
      = markerSeq isOrdered level idx items.length := by
  induction items with
  | nil => intro idx; rfl
  | cons item rest ih =>
    intro idx
    have hitem : listChildrenOf item = [] := h item (List.mem_cons_self item rest)
    have hrest : ∀ it ∈ rest, listChildrenOf it = [] :=
      fun it hit => h it (List.mem_cons_of_mem item hit)
    simp only [listItemsLoop, hitem, flatList, List.length_cons, markerSeq,
      List.cons_append, List.nil_append, List.map_cons, ih hrest (idx + 1)]
    rfl

/-- C8 (amended): for every unordered list whose items carry no nested
sub-lists, the marker prefixed to the item at 0-based position `k` and
nesting level `L` is the glyph selected from `\x7b•, ◦, ▪\x7d` by `L mod 3`
followed by a space, and for every ordered list it is `"(k+1). "`; the
`\x7b●, ○, ▪\x7d` glyphs appear only in the superseded variant of the
builder. -/
theorem c8_item_markers (fs : Option FormatSettingsJS) (isOrdered : Bool)
    (level : Nat) (items : List TokObj) (fuel : Nat)
    (h : ∀ item ∈ items, listChildrenOf item = []) :
    (createListItemParagraphs (fuel + 1) (listTok isOrdered items) level fs).map
        headRunText
      = markerSeq isOrdered level 0 items.length ∧
    (∀ L k, itemMarkerStr false L k = bulletChars.getD (L % 3) "" ++ " ") ∧
    (∀ k, itemMarkerStr true level k = toString (k + 1) ++ ". ") ∧
    itemMarkerStr false 0 0 = "• " ∧ itemMarkerStr false 1 0 = "◦ " ∧
    itemMarkerStr false 2 0 = "▪ " ∧ itemMarkerStr false 3 0 = "• " ∧
    itemMarkerStr true 0 4 = "5. " := by
  refine ⟨?_, fun L k => rfl, fun k => rfl, by decide, by decide, by decide,
    by decide, by decide⟩
  exact listItemsLoop_markers fs isOrdered level _ items h 0

/-- Witness for `c8_item_markers`: a two-item flat ordered list yields the
markers `1. `, `2. `. -/
theorem c8_item_markers_witness :
    (createListItemParagraphs 1
        (listTok true [itemTok "A" [textTok "A"], itemTok "B" [textTok "B"]])
        0 none).map headRunText
      = markerSeq true 0 0 2 :=
  (c8_item_markers none true 0
    [itemTok "A" [textTok "A"], itemTok "B" [textTok "B"]] 0
    (by
      intro item hmem
      rcases List.mem_cons.mp hmem with rfl | hmem2
      · rfl
      · rcases List.mem_cons.mp hmem2 with rfl | hmem3
        · rfl
        · exact absurd hmem3 (List.not_mem_nil item))).1

/-- The token-iteration boundary distributes over appended token streams
(processing is strictly per-token). -/
theorem tokenIterationBoundary_append (fs : Option FormatSettingsJS)
    (build : TokObj → List Element × Bool) (l1 l2 : List TokObj) :
    tokenIterationBoundary fs build (l1 ++ l2)
      = tokenIterationBoundary fs build l1 ++ tokenIterationBoundary fs build l2 := by
  induction l1 with
  | nil => rfl
  | cons tok rest ih =>
    simp only [List.cons_append, tokenIterationBoundary, List.append_eq, ih,
      List.append_assoc]

/-- C6: for every image reference the resolver cannot turn into bytes, the
emitted element is the placeholder paragraph carrying the image's alt text
and the original reference string verbatim (its run text is
`[图片: alt](ref)`), and the rest of the document is still produced: the
surrounding token streams convert exactly as they would alone.  (In the
pure embedding no exception exists to propagate; the load failure is the
`none` branch the source reaches through its per-image `try`/`catch`.) -/
theorem c6_unresolvable_image_placeholder (r : Resolver)
    (fs : Option FormatSettingsJS) (fuel : Nat) (ts1 ts2 : List TokObj)
    (ref alt : String) (h : r ref = none) :
    mdTokensToParagraphs fuel r fs (ts1 ++ imageTok ref alt :: ts2)
      = mdTokensToParagraphs fuel r fs ts1
          ++ .para (placeholderPara (jsOr alt "图片") ref)
            :: mdTokensToParagraphs fuel r fs ts2 ∧
    (placeholderRun (jsOr alt "图片") ref).text
      = "[图片: " ++ jsOr alt "图片" ++ "](" ++ ref ++ ")" := by
  constructor
  · have hload : loadedBuffer r ref = none := by
      unfold loadedBuffer
      by_cases href : ref = "" <;> simp [href, h]
    have himg : buildTokenElements fuel r fs (imageTok ref alt)
        = [.para (placeholderPara (jsOr alt "图片") ref)] := by
      show imageElements r (imageTok ref alt)
          = [.para (placeholderPara (jsOr alt "图片") ref)]
      unfold imageElements
      simp only [show (imageTok ref alt).href = ref from rfl, hload]
      rfl
    unfold mdTokensToParagraphs
    rw [tokenIterationBoundary_append]
    simp only [tokenIterationBoundary, himg, Bool.false_eq_true, if_false,
      List.append_nil, List.singleton_append]
  · rfl

/-- Witness for `c6_unresolvable_image_placeholder`: a lone image token
whose URL a failing resolver cannot fetch becomes exactly the placeholder
paragraph. -/
theorem c6_unresolvable_image_placeholder_witness :
    mdTokensToParagraphs 1 (fun _ => none) none
        ([] ++ imageTok "http://e/i.png" "pic" :: [])
      = mdTokensToParagraphs 1 (fun _ => none) none []
          ++ .para (placeholderPara (jsOr "pic" "图片") "http://e/i.png")
            :: mdTokensToParagraphs 1 (fun _ => none) none [] ∧
    (placeholderRun (jsOr "pic" "图片") "http://e/i.png").text
      = "[图片: " ++ jsOr "pic" "图片" ++ "](" ++ "http://e/i.png" ++ ")" :=
  c6_unresolvable_image_placeholder (fun _ => none) none 1 [] []
    "http://e/i.png" "pic" rfl

/-- Modelled from the spec's words (§4.4 List, design note §9): the
depth-first flattened level sequence of a (fuel-bounded) list token tree —
each item contributes its own level, immediately followed by the levels of
its nested sub-lists at `level + 1`. -/
def specItemLevels : Nat → TokObj → Nat → List Nat
  | 0, _, _ => []
  | fuel + 1, tok, level =>
    flatList (fun item =>
        level :: flatList (fun l => specItemLevels fuel l (level + 1))
          (listChildrenOf item))
      (tok.items.getD [])

/-- The hanging-indent left offset of a paragraph (the encoding of the item
nesting level: `720 * (level + 1)` twips). -/
def paraIndentLeft (p : Paragraph) : Option JQ :=
  (p.indent.getD {}).left

/-- Mapping distributes over `flatList`. -/
theorem flatList_map (f : α → List β) (g : β → γ) (l : List α) :
    (flatList f l).map g = flatList (fun x => (f x).map g) l := by
  induction l with
  | nil => rfl
  | cons x xs ih => simp only [flatList, List.map_append, ih]

/-- Auxiliary: the item loop emits, per item, its own paragraph (at the
loop's level-proportional indent) immediately followed by the nested
paragraphs produced by `nested`. -/
theorem listItemsLoop_indents (fs : Option FormatSettingsJS)
    (isOrdered : Bool) (level : Nat) (nested : TokObj → List Paragraph) :
    ∀ (idx : Nat) (items : List TokObj),
      (listItemsLoop fs isOrdered level nested idx items).map paraIndentLeft
        = flatList (fun item =>
            some ((720 : JQ) * JQ.ofNat (level + 1))
              :: flatList (fun l => (nested l).map paraIndentLeft)
                  (listChildrenOf item))
          items := by
  intro idx items
  induction items generalizing idx with
  | nil => rfl
  | cons item rest ih =>
    simp only [listItemsLoop, flatList, List.cons_append, List.map_cons,
      List.map_append, flatList_map, ih (idx + 1)]
    rfl

/-- The run texts of a paragraph (images contribute an empty string). -/
def runTexts (p : Paragraph) : List String :=
  p.children.map (fun c =>
    match c with
    | .run r => r.text
    | .image _ _ _ => "")

/-- The 2-level unordered list `[A, B[C, D], E]` of the claim. -/
def c7NestedList : TokObj :=
  listTok false
    [itemTok "A" [textTok "A"],
     itemTok "B" [textTok "B",
       listTok false [itemTok "C" [textTok "C"], itemTok "D" [textTok "D"]]],
     itemTok "E" [textTok "E"]]

/-- C7: `createListItemParagraphs` emits the depth-first flattening of the
list token tree — each parent item immediately followed by its nested
sub-lists' items at `level + 1` (the first conjunct refines the emitted
level-encoding indents against the spec-side flattening for every token
tree and fuel); in particular the 2-level unordered list `[A, B[C, D], E]`
yields exactly `[A(level 0), B(level 0), C(level 1), D(level 1),
E(level 0)]` in that order (levels encoded as `720·(level+1)`-twip
indents). -/
theorem c7_nested_list_flattening :
    (∀ (fuel : Nat) (tok : TokObj) (level : Nat)
        (fs : Option FormatSettingsJS),
        (createListItemParagraphs fuel tok level fs).map paraIndentLeft
          = (specItemLevels fuel tok level).map
              (fun l => some ((720 : JQ) * JQ.ofNat (l + 1)))) ∧
    (createListItemParagraphs 5 c7NestedList 0 none).map
        (fun p => (runTexts p, paraIndentLeft p))
      = [(["• ", "A"], some 720), (["• ", "B"], some 720),
         (["◦ ", "C"], some 1440), (["◦ ", "D"], some 1440),
         (["• ", "E"], some 720)] := by
  constructor
  · intro fuel
    induction fuel with
    | zero => intro tok level fs; rfl
    | succ fuel ih =>
      intro tok level fs
      show (listItemsLoop fs tok.ordered level
          (fun l => createListItemParagraphs fuel l (level + 1) fs)
          0 (tok.items.getD [])).map paraIndentLeft = _
      rw [listItemsLoop_indents]
      simp only [ih, specItemLevels, flatList_map, List.map_cons]
  · decide
